import Mathlib

/-!
Verification of the tool-call orchestration core of the AzureAIExperiments
repository: a shallow embedding in Lean 4 of the HTTP handler for
`GET /generated/[file]`, the document factory, the chat tool-call loop and
its two executors, the attachment-to-content mapping, and the artifact
sanitizer configuration, together with theorems settling the frozen claims.

Modelling conventions:
- The process working directory is fixed to the concrete absolute path
  `/app`; `path.join` on absolute POSIX paths is modelled by string
  concatenation followed by segment normalisation (`.` dropped, `..` pops,
  empty segments collapsed), matching Node `path.join` for absolute bases.
- Bytes are `Nat` values below 256 in lists; `Buffer.from(content, "utf-8")`
  is modelled by an explicit UTF-8 encoder over codepoints.
- The filesystem blob store is a lookup `String → Option (List Nat)` for
  reads, and an association list `List (String × List Nat)` for writes.
- External collaborators (the PDF encoder, the DOCX packer, the
  `sanitize-html` engine as a string transformer, Node `Buffer#toString`,
  and the UUID generator) are fields of an `ExtDeps` record and quantified
  over in the theorems; the spec treats them as opaque format encoders.
- JavaScript string primitives are re-implemented structurally over
  `List Char` so that every definition evaluates inside the kernel.
-/

/-! ## JavaScript string primitives over character lists -/

/-- JS `String.prototype.startsWith`. -/
def jsStartsWith (s p : String) : Bool := p.data.isPrefixOf s.data

/-- JS `String.prototype.endsWith`. -/
def jsEndsWith (s p : String) : Bool := p.data.reverse.isPrefixOf s.data.reverse

/-- JS `String.prototype.toLowerCase` (ASCII range, as used here). -/
def lowerStr (s : String) : String := String.mk (s.data.map Char.toLower)

/-- Split a character list at every slash (auxiliary for the path model
and for `path.extname`). -/
def splitSlashAux : List Char → List Char → List (List Char)
  | [], acc => [acc.reverse]
  | '/' :: rest, acc => acc.reverse :: splitSlashAux rest []
  | c :: rest, acc => splitSlashAux rest (c :: acc)

/-- JS `Array.prototype.join("\n")` over strings. -/
def joinLines : List String → String
  | [] => ""
  | [l] => l
  | l :: rest => l ++ "\n" ++ joinLines rest

/-! ## POSIX path model (Node `path.join` on absolute bases) -/

/-- One normalisation step of `path.join`: empty and `.` segments are
dropped, `..` pops the last segment (never above the root of an absolute
path), other segments are appended. -/
def normStep (acc : List (List Char)) (seg : List Char) : List (List Char) :=
  if seg = [] ∨ seg = ['.'] then acc
  else if seg = ['.', '.'] then acc.dropLast
  else acc ++ [seg]

/-- Rejoin normalised segments with slashes. -/
def joinSegs : List (List Char) → List Char
  | [] => []
  | [s] => s
  | s :: rest => s ++ '/' :: joinSegs rest

/-- Model of Node `path.join(base, rel)` for an absolute `base`: join with
a slash and normalise segments. -/
def pathJoinAbs (base rel : String) : String :=
  let segs := (splitSlashAux (base ++ "/" ++ rel).data []).foldl normStep []
  String.mk ('/' :: joinSegs segs)

/-- The process working directory `process.cwd()`, fixed to a concrete
absolute path for the embedding. -/
def cwd : String := "/app"

/-- `GENERATED_DIR = path.join(process.cwd(), "generated")` from
`src/lib/fsUtils.ts`. -/
def GENERATED_DIR : String := pathJoinAbs cwd "generated"

/-- `UPLOAD_DIR = path.join(process.cwd(), "public", "uploads")` from
`src/lib/fsUtils.ts`. -/
def UPLOAD_DIR : String := pathJoinAbs cwd "public/uploads"

/-- A resolved path lies outside the generated-files directory: it is
neither the directory itself nor anything below it. -/
def escapesGeneratedDir (p : String) : Bool :=
  !(p == GENERATED_DIR) && !(jsStartsWith p (GENERATED_DIR ++ "/"))

/-! ## `GET /generated/[file]` from `src/app/api/generated/[file]/route.ts` -/

/-- Model of Node `path.extname(s)`: the suffix of the basename starting at
its last dot, empty when the basename has no dot or only a leading dot. -/
def extnameOf (s : String) : String :=
  let b := ((splitSlashAux s.data []).getLast?).getD []
  let rev := b.reverse
  let t := rev.takeWhile (fun c => c != '.')
  if t.length = rev.length then ""
  else if t.length + 1 = rev.length then ""
  else String.mk ('.' :: t.reverse)

/-- The `MIME_MAP` lookup with the `application/octet-stream` fallback from
the route module. -/
def mimeFor (extension : String) : String :=
  if extension = ".pdf" then "application/pdf"
  else if extension = ".docx" then
    "application/vnd.openxmlformats-officedocument.wordprocessingml.document"
  else if extension = ".txt" then "text/plain; charset=utf-8"
  else if extension = ".csv" then "text/csv; charset=utf-8"
  else if extension = ".md" then "text/markdown; charset=utf-8"
  else "application/octet-stream"

/-- Model of the JS replace of the anchored pattern "one or more non-dash
characters followed by a dash" with the empty string, as used for the
`Content-Disposition` filename: drop the shortest nonempty dash-free
leading run together with the dash that follows it, when one exists. -/
def stripLeadingId (s : String) : String :=
  let pre := s.data.takeWhile (fun c => c != '-')
  if pre.length = 0 then s
  else if pre.length = s.data.length then s
  else String.mk (s.data.drop (pre.length + 1))

/-- Outcome of the `GET /generated/[file]` handler: HTTP 400, HTTP 404, or
HTTP 200 carrying the Content-Type, the Content-Disposition filename, and
the streamed bytes. -/
inductive GetResult where
  | badRequest : GetResult
  | notFound : GetResult
  | ok : String → String → List Nat → GetResult
deriving DecidableEq

/-- The `GET` handler of `src/app/api/generated/[file]/route.ts`: join the
parameter onto `GENERATED_DIR`, reject with 400 when the joined path does
not start with `GENERATED_DIR`, 404 when the blob is absent, otherwise
stream the bytes with the mapped MIME type and the id-stripped filename. -/
def GETgenerated (blob : String → Option (List Nat)) (file : String) : GetResult :=
  let fullPath := pathJoinAbs GENERATED_DIR file
  if !(jsStartsWith fullPath GENERATED_DIR) then GetResult.badRequest
  else
    match blob fullPath with
    | none => GetResult.notFound
    | some bytes =>
        GetResult.ok (mimeFor (lowerStr (extnameOf file))) (stripLeadingId file) bytes

example : GENERATED_DIR = "/app/generated" := by decide
example : pathJoinAbs GENERATED_DIR "../../etc/passwd" = "/etc/passwd" := by decide
example : GETgenerated (fun _ => none) "../../etc/passwd" = GetResult.badRequest := by decide
example : pathJoinAbs GENERATED_DIR "../generatedX" = "/app/generatedX" := by decide
example : escapesGeneratedDir "/app/generatedX" = true := by decide
example : stripLeadingId "abc-def-g" = "def-g" := by decide
example : extnameOf "3b241101-x-report.pdf" = ".pdf" := by decide
example : extnameOf "../generatedX" = "" := by decide

/-! ## UTF-8 encoding (model of `Buffer.from(content, "utf-8")`) -/

/-- UTF-8 encoding of a single codepoint (given as a `Nat`). -/
def utf8EncodeCp (c : Nat) : List Nat :=
  if c < 0x80 then [c]
  else if c < 0x800 then [0xC0 + c / 64, 0x80 + c % 64]
  else if c < 0x10000 then
    [0xE0 + c / 4096, 0x80 + c / 64 % 64, 0x80 + c % 64]
  else
    [0xF0 + c / 262144, 0x80 + c / 4096 % 64, 0x80 + c / 64 % 64, 0x80 + c % 64]

/-- UTF-8 encoding of a string: the bytes `Buffer.from(s, "utf-8")` holds. -/
def utf8Encode (s : String) : List Nat :=
  (s.data.map (fun c => utf8EncodeCp c.toNat)).flatten

/-- A UTF-8 continuation byte. -/
def isCont (b : Nat) : Bool := 0x80 ≤ b && b < 0xC0

/-- State of the UTF-8 decoding automaton: decoded output, the codepoint
bits accumulated so far, the number of pending continuation bytes, and an
error flag. -/
structure Utf8State where
  out : List Nat
  acc : Nat
  need : Nat
  bad : Bool
deriving DecidableEq

/-- One byte of UTF-8 decoding. -/
def utf8Step (st : Utf8State) (b : Nat) : Utf8State :=
  if st.bad then st
  else if st.need = 0 then
    if b < 0x80 then { st with out := st.out ++ [b] }
    else if b < 0xC0 then { st with bad := true }
    else if b < 0xE0 then { st with acc := b - 0xC0, need := 1 }
    else if b < 0xF0 then { st with acc := b - 0xE0, need := 2 }
    else if b < 0xF8 then { st with acc := b - 0xF0, need := 3 }
    else { st with bad := true }
  else if isCont b then
    if st.need = 1 then
      { st with out := st.out ++ [st.acc * 64 + (b - 0x80)], acc := 0, need := 0 }
    else { st with acc := st.acc * 64 + (b - 0x80), need := st.need - 1 }
  else { st with bad := true }

/-- UTF-8 decoder returning the codepoint sequence, `none` on a malformed
or truncated byte sequence. -/
def utf8Dec (bs : List Nat) : Option (List Nat) :=
  let st := bs.foldl utf8Step ⟨[], 0, 0, false⟩
  if st.bad || !(st.need = 0) then none else some st.out

theorem char_toNat_lt (c : Char) : c.toNat < 1114112 := by
  have h := c.valid
  rcases h with h | ⟨_, h2⟩
  · exact Nat.lt_trans h (by norm_num)
  · exact h2

theorem utf8Fold_encodeCp (c : Nat) (hc : c < 1114112) (out : List Nat) :
    (utf8EncodeCp c).foldl utf8Step ⟨out, 0, 0, false⟩ = ⟨out ++ [c], 0, 0, false⟩ := by
  by_cases h1 : c < 0x80
  · simp only [utf8EncodeCp, if_pos h1, List.foldl_cons, List.foldl_nil, utf8Step]
    simp [h1]
  · by_cases h2 : c < 0x800
    · simp only [utf8EncodeCp, if_neg h1, if_pos h2, List.foldl_cons, List.foldl_nil]
      have ha : ¬ (0xC0 + c / 64 < 0x80) := by omega
      have hb : ¬ (0xC0 + c / 64 < 0xC0) := by omega
      have hcnd : 0xC0 + c / 64 < 0xE0 := by omega
      have hcont : isCont (0x80 + c % 64) = true := by
        simp only [isCont, Bool.and_eq_true, decide_eq_true_eq]
        omega
      simp only [utf8Step, ha, hb, hcnd, hcont, if_neg, if_pos, Bool.false_eq_true,
        if_false, if_true, reduceIte]
      simp
      omega
    · by_cases h3 : c < 0x10000
      · simp only [utf8EncodeCp, if_neg h1, if_neg h2, if_pos h3, List.foldl_cons,
          List.foldl_nil]
        have ha : ¬ (0xE0 + c / 4096 < 0x80) := by omega
        have hb : ¬ (0xE0 + c / 4096 < 0xC0) := by omega
        have hcnd : ¬ (0xE0 + c / 4096 < 0xE0) := by omega
        have hdd : 0xE0 + c / 4096 < 0xF0 := by omega
        have hcont1 : isCont (0x80 + c / 64 % 64) = true := by
          simp only [isCont, Bool.and_eq_true, decide_eq_true_eq]
          omega
        have hcont2 : isCont (0x80 + c % 64) = true := by
          simp only [isCont, Bool.and_eq_true, decide_eq_true_eq]
          omega
        simp only [utf8Step, ha, hb, hcnd, hdd, hcont1, hcont2, Bool.false_eq_true,
          if_false, if_true, reduceIte]
        simp
        omega
      · simp only [utf8EncodeCp, if_neg h1, if_neg h2, if_neg h3, List.foldl_cons,
          List.foldl_nil]
        have ha : ¬ (0xF0 + c / 262144 < 0x80) := by omega
        have hb : ¬ (0xF0 + c / 262144 < 0xC0) := by omega
        have hcnd : ¬ (0xF0 + c / 262144 < 0xE0) := by omega
        have hdd : ¬ (0xF0 + c / 262144 < 0xF0) := by omega
        have hee : 0xF0 + c / 262144 < 0xF8 := by omega
        have hcont1 : isCont (0x80 + c / 4096 % 64) = true := by
          simp only [isCont, Bool.and_eq_true, decide_eq_true_eq]
          omega
        have hcont2 : isCont (0x80 + c / 64 % 64) = true := by
          simp only [isCont, Bool.and_eq_true, decide_eq_true_eq]
          omega
        have hcont3 : isCont (0x80 + c % 64) = true := by
          simp only [isCont, Bool.and_eq_true, decide_eq_true_eq]
          omega
        simp only [utf8Step, ha, hb, hcnd, hdd, hee, hcont1, hcont2, hcont3,
          Bool.false_eq_true, if_false, if_true, reduceIte]
        simp
        omega

theorem utf8Fold_encode_chars (cs : List Char) (out : List Nat) :
    ((cs.map (fun c => utf8EncodeCp c.toNat)).flatten).foldl utf8Step ⟨out, 0, 0, false⟩
      = ⟨out ++ cs.map Char.toNat, 0, 0, false⟩ := by
  induction cs generalizing out with
  | nil => simp
  | cons c cs ih =>
      simp only [List.map_cons, List.flatten_cons, List.foldl_append]
      rw [utf8Fold_encodeCp c.toNat (char_toNat_lt c) out, ih]
      simp

/-- UTF-8 round trip: decoding the encoded bytes of any string recovers
exactly its codepoint sequence. -/
theorem utf8Dec_utf8Encode (s : String) :
    utf8Dec (utf8Encode s) = some (s.data.map Char.toNat) := by
  show utf8Dec ((s.data.map (fun c => utf8EncodeCp c.toNat)).flatten)
      = some (s.data.map Char.toNat)
  rw [utf8Dec, utf8Fold_encode_chars s.data []]
  simp

/-! ## Base64 (model of `Buffer#toString("base64")`) -/

def base64Digits : List Char :=
  "ABCDEFGHIJKLMNOPQRSTUVWXYZabcdefghijklmnopqrstuvwxyz0123456789+/".data

def b64Char (n : Nat) : Char := base64Digits.getD n 'A'

/-- Standard base64 encoding of a byte list. -/
def base64Encode : List Nat → String
  | [] => ""
  | [a] => String.mk [b64Char (a / 4), b64Char (a % 4 * 16), '=', '=']
  | [a, b] =>
      String.mk [b64Char (a / 4), b64Char (a % 4 * 16 + b / 16), b64Char (b % 16 * 4), '=']
  | a :: b :: c :: rest =>
      String.mk [b64Char (a / 4), b64Char (a % 4 * 16 + b / 16),
        b64Char (b % 16 * 4 + c / 64), b64Char (c % 64)] ++ base64Encode rest

example : utf8Encode "hi" = [104, 105] := by decide
example : utf8Encode "é" = [0xC3, 0xA9] := by decide
example : base64Encode [77, 97, 110] = "TWFu" := by decide

/-! ## Document factory (`src/lib/documentFactory.ts`) -/

/-- The five supported document types. -/
inductive DocumentType where
  | pdf | docx | txt | csv | md
deriving DecidableEq

/-- The `EXTENSION_MAP` record. -/
def EXTENSION_MAP : DocumentType → String
  | DocumentType.pdf => ".pdf"
  | DocumentType.docx => ".docx"
  | DocumentType.txt => ".txt"
  | DocumentType.csv => ".csv"
  | DocumentType.md => ".md"

/-- Model of the JS replace removing the anchored pattern "a dot followed
by one or more characters that are neither a dot nor a slash, at the end
of the string": strips the final extension when one exists. -/
def stripExtension (s : String) : String :=
  let rev := s.data.reverse
  let t := rev.takeWhile (fun c => c != '.' && c != '/')
  match rev.drop t.length with
  | '.' :: kept =>
      if t.isEmpty then s else String.mk kept.reverse
  | _ => s

/-- A character inside the allowed class letters, digits, dot, underscore,
dash used by the filename sanitiser. -/
def allowedFileChar (c : Char) : Bool :=
  c.isAlphanum || c == '.' || c == '_' || c == '-'

/-- The per-character replacement: characters outside the allowed class
become an underscore. -/
def sanitizeChar (c : Char) : Char :=
  if allowedFileChar c then c else '_'

/-- The `safeBase` pipeline of `createDocumentFile`: strip the extension,
replace disallowed characters, truncate to 120 characters, and fall back
to the fixed default name when the result is empty. -/
def safeBase (filename : String) : String :=
  let b := String.mk (((stripExtension filename).data.map sanitizeChar).take 120)
  if b = "" then "azure-ai-document" else b

example : stripExtension "report.pdf" = "report" := by decide
example : stripExtension "archive.tar.gz" = "archive.tar" := by decide
example : stripExtension ".bashrc" = "" := by decide
example : stripExtension "file." = "file." := by decide
example : stripExtension "a.b/c" = "a.b/c" := by decide
example : safeBase ".bashrc" = "azure-ai-document" := by decide
example : safeBase "my report (v2).pdf" = "my_report__v2_" := by decide

/-! ### DOCX paragraph splitting (`renderDocx`) -/

/-- State of the fold modelling the JS split on the regex "two or more
newlines": completed blocks, the current block, and the length of the
pending newline run. -/
structure SplitState where
  blocks : List (List Char)
  current : List Char
  pending : Nat

/-- One character of the blank-line split. A run of two or more newlines
ends the current block; shorter runs stay inside it. -/
def splitBlankStep (st : SplitState) (c : Char) : SplitState :=
  if c = '\n' then { st with pending := st.pending + 1 }
  else if st.pending ≥ 2 then ⟨st.blocks ++ [st.current], [c], 0⟩
  else ⟨st.blocks, st.current ++ List.replicate st.pending '\n' ++ [c], 0⟩

/-- Model of the JS `content.split` on the regex "two or more newlines"
(greedy): the resulting list of blocks, in order.  Like the JS split, the
result is never empty and keeps empty blocks produced by leading,
trailing, or adjacent separators. -/
def splitBlank (s : String) : List String :=
  let st := s.data.foldl splitBlankStep ⟨[], [], 0⟩
  let blocks :=
    if st.pending ≥ 2 then st.blocks ++ [st.current, []]
    else st.blocks ++ [st.current ++ List.replicate st.pending '\n']
  blocks.map String.mk

/-- JS whitespace test used by `String.prototype.trim` (restricted to the
ASCII whitespace characters that occur in this development). -/
def jsWs (c : Char) : Bool :=
  c = ' ' || c = '\t' || c = '\n' || c = '\r' || c = '\x0b' || c = '\x0c'

/-- JS `String.prototype.trim`. -/
def jsTrim (s : String) : String :=
  String.mk (((s.data.dropWhile jsWs).reverse.dropWhile jsWs).reverse)

/-- The paragraph texts `renderDocx` hands to the external DOCX encoder:
one `Paragraph(block.trim())` per split block, with the unreachable
whole-content fallback of the source kept verbatim. -/
def renderDocxParagraphs (content : String) : List String :=
  let paragraphs := (splitBlank content).map jsTrim
  if paragraphs.length ≠ 0 then paragraphs else [content]

/-- The paragraph list as the claim describes it: exactly one paragraph
per NON-EMPTY block, and the whole content as a single paragraph when
every block is empty.  Stated from the claim wording, for comparison with
`renderDocxParagraphs`. -/
def docxParagraphsClaim (content : String) : List String :=
  let ne := (splitBlank content).filter (fun b => b ≠ "")
  if ne.isEmpty then [content] else ne.map jsTrim

example : splitBlank "a\n\n\nb" = ["a", "b"] := by decide
example : splitBlank "a\nb" = ["a\nb"] := by decide
example : splitBlank "" = [""] := by decide
example : splitBlank "\n\n" = ["", ""] := by decide
example : splitBlank "\n\nhello" = ["", "hello"] := by decide
example : renderDocxParagraphs "para one\n\npara two" = ["para one", "para two"] := by decide
example : renderDocxParagraphs "\n\nhello" = ["", "hello"] := by decide
example : docxParagraphsClaim "\n\nhello" = ["hello"] := by decide

/-- The split never produces an empty block list, so the whole-content
fallback branch of `renderDocx` is unreachable. -/
theorem splitBlank_ne_nil (s : String) : splitBlank s ≠ [] := by
  rw [splitBlank]
  by_cases h : (s.data.foldl splitBlankStep ⟨[], [], 0⟩).pending ≥ 2
  · simp [h]
  · simp [h]

/-! ## JSON values and the zod argument schemas (`src/app/api/chat/route.ts`) -/

/-- JSON values.  Numbers are modelled as integers (no numeric argument is
ever consumed by the tool schemas). -/
inductive Json where
  | jnull : Json
  | jbool : Bool → Json
  | jnum : Int → Json
  | jstr : String → Json
  | jarr : List Json → Json
  | jobj : List (String × Json) → Json

/-- Field lookup in a JSON object literal; later duplicates win, matching
`JSON.parse`. -/
def lookupField : List (String × Json) → String → Option Json
  | [], _ => none
  | (k, v) :: rest, key =>
      match lookupField rest key with
      | some v2 => some v2
      | none => if k = key then some v else none

/-- Object field access (`none` for absent fields and non-objects). -/
def Json.getField : Json → String → Option Json
  | Json.jobj fields, key => lookupField fields key
  | _, _ => none

/-- The raw `arguments` payload of a function call, abstracting the raw
JSON string: either text that `JSON.parse` rejects, or text parsing to a
JSON value.  The empty string is `wellFormed (Json.jobj [])` because
`safeJsonParse` maps falsy input to an empty object. -/
inductive RawArgs where
  | malformed : RawArgs
  | wellFormed : Json → RawArgs

/-- `safeJsonParse` from the chat route: `none` models the `null` returned
on a parse failure. -/
def safeJsonParse : RawArgs → Option Json
  | RawArgs.malformed => none
  | RawArgs.wellFormed j => some j

/-- The `jsonArgs ?? \x7b\x7d` coalescing applied before schema validation
(JSON `null` also coalesces, mirroring the JS nullish operator). -/
def jsonArgsOf (raw : RawArgs) : Json :=
  match safeJsonParse raw with
  | none => Json.jobj []
  | some Json.jnull => Json.jobj []
  | some j => j

/-- A required string field with a minimum length and an optional maximum
length, as in the zod schemas (error messages abstracted). -/
def reqString (j : Json) (key : String) (minLen : Nat) (maxLen : Option Nat) :
    Except String String :=
  match j.getField key with
  | none => Except.error "Required"
  | some (Json.jstr s) =>
      if s.length < minLen then Except.error "Too small"
      else
        match maxLen with
        | some m => if m < s.length then Except.error "Too big" else Except.ok s
        | none => Except.ok s
  | some _ => Except.error "Expected string"

/-- An optional string field, as in the zod schemas. -/
def optString (j : Json) (key : String) : Except String (Option String) :=
  match j.getField key with
  | none => Except.ok none
  | some (Json.jstr s) => Except.ok (some s)
  | some _ => Except.error "Expected string"

/-- The `type` enum field of `documentArgsSchema`. -/
def reqDocType (j : Json) (key : String) : Except String DocumentType :=
  match j.getField key with
  | none => Except.error "Required"
  | some (Json.jstr "pdf") => Except.ok DocumentType.pdf
  | some (Json.jstr "docx") => Except.ok DocumentType.docx
  | some (Json.jstr "txt") => Except.ok DocumentType.txt
  | some (Json.jstr "csv") => Except.ok DocumentType.csv
  | some (Json.jstr "md") => Except.ok DocumentType.md
  | some (Json.jstr _) => Except.error "Invalid enum value"
  | some _ => Except.error "Expected string"

/-- One entry of the flattened zod field-error object. -/
def errEntry {α : Type} (field : String) : Except String α → List (String × Json)
  | Except.error m => [(field, Json.jarr [Json.jstr m])]
  | Except.ok _ => []

/-- Arguments of `create_artifact` after validation. -/
structure ArtifactArgs where
  title : String
  description : Option String
  html : String
  css : Option String
  js : Option String

/-- `artifactArgsSchema.safeParse`: title (1 to 120 characters) and html
(nonempty) required; description, css, js optional strings.  On failure
returns the flattened field errors as a JSON object. -/
def parseArtifactArgs (j : Json) : Except Json ArtifactArgs :=
  let rt := reqString j "title" 1 (some 120)
  let rd := optString j "description"
  let rh := reqString j "html" 1 none
  let rc := optString j "css"
  let rj := optString j "js"
  match rt, rd, rh, rc, rj with
  | Except.ok t, Except.ok d, Except.ok h, Except.ok c, Except.ok jsv =>
      Except.ok ⟨t, d, h, c, jsv⟩
  | _, _, _, _, _ =>
      Except.error (Json.jobj (errEntry "title" rt ++ errEntry "description" rd
        ++ errEntry "html" rh ++ errEntry "css" rc ++ errEntry "js" rj))

/-- Arguments of `create_document` after validation. -/
structure DocumentArgs where
  filename : String
  type : DocumentType
  content : String
  summary : Option String

/-- `documentArgsSchema.safeParse`: filename and content nonempty strings,
type one of the five enum values, summary an optional string. -/
def parseDocumentArgs (j : Json) : Except Json DocumentArgs :=
  let rf := reqString j "filename" 1 none
  let rt := reqDocType j "type"
  let rc := reqString j "content" 1 none
  let rs := optString j "summary"
  match rf, rt, rc, rs with
  | Except.ok f, Except.ok t, Except.ok c, Except.ok s => Except.ok ⟨f, t, c, s⟩
  | _, _, _, _ =>
      Except.error (Json.jobj (errEntry "filename" rf ++ errEntry "type" rt
        ++ errEntry "content" rc ++ errEntry "summary" rs))

/-! ## External collaborators and orchestration state -/

/-- External collaborators of the orchestration core, treated as opaque by
the spec: the `sanitize-html` engine as a string transformer, the PDF
encoder, the DOCX packer (applied to the paragraph texts), Node
`Buffer#toString("utf-8")`, and the UUID supply (indexed by how many ids
the request has consumed). -/
structure ExtDeps where
  san : String → String
  pdfEnc : String → List Nat
  docxPack : List String → List Nat
  bufToString : List Nat → String
  uuid : Nat → String

/-- An artifact produced by `create_artifact` (`src/lib/types.ts`). -/
structure Artifact where
  id : String
  title : String
  description : Option String
  previewHtml : String
  fullHtml : String

/-- A generated file produced by `create_document` (`src/lib/types.ts`). -/
structure GeneratedFile where
  id : String
  filename : String
  type : DocumentType
  downloadUrl : String
  summary : Option String
  storedFilename : String

/-- Mutable state of one orchestration request: the two accumulator
arrays, the blob store writes, and the number of consumed UUIDs. -/
structure OrchState where
  artifacts : List Artifact
  generatedFiles : List GeneratedFile
  store : List (String × List Nat)
  nextId : Nat

def initialState : OrchState := ⟨[], [], [], 0⟩

/-! ## `createDocumentFile` and `createBufferForType` -/

/-- `createBufferForType`: pdf and docx delegate to the external encoders
(docx after the paragraph split), every other type is the raw UTF-8 bytes
of the content. -/
def createBufferForType (ext : ExtDeps) (type : DocumentType) (content : String) : List Nat :=
  match type with
  | DocumentType.pdf => ext.pdfEnc content
  | DocumentType.docx => ext.docxPack (renderDocxParagraphs content)
  | _ => utf8Encode content

/-- Result record of `createDocumentFile`. -/
structure DocumentCreationResult where
  id : String
  filename : String
  type : DocumentType
  storedFilename : String
  fullPath : String

/-- `createDocumentFile` from `src/lib/documentFactory.ts`: derive the
safe base name, append the canonical extension, prefix the fresh id and a
dash, encode the content, and persist the bytes under the joined path. -/
def createDocumentFile (ext : ExtDeps) (id : String) (filename : String)
    (type : DocumentType) (content : String) (store : List (String × List Nat)) :
    DocumentCreationResult × List (String × List Nat) :=
  let extension := EXTENSION_MAP type
  let finalFilename := safeBase filename ++ extension
  let storedFilename := id ++ "-" ++ finalFilename
  let destination := pathJoinAbs GENERATED_DIR storedFilename
  let buffer := createBufferForType ext type content
  (⟨id, finalFilename, type, storedFilename, destination⟩, store ++ [(destination, buffer)])

/-! ## The two tool executors -/

/-- The standalone full document assembled for an artifact: doctype, head
with UTF-8 meta and the raw CSS, body with the raw HTML and, when the JS
is present and nonempty, a module script block holding it verbatim; empty
lines are filtered out and the rest joined with newlines. -/
def buildFullHtml (html : String) (css js : Option String) : String :=
  let lines : List String :=
    ["<!DOCTYPE html>", "<html>", "<head>", "<meta charset=\"utf-8\" />",
     "<style>", css.getD "", "</style>", "</head>", "<body>", html,
     (match js with
      | some j => if j = "" then "" else "<script type=\"module\">\n" ++ j ++ "\n</script>"
      | none => ""),
     "</body>", "</html>"]
  joinLines (lines.filter (fun l => l ≠ ""))

/-- `executeCreateArtifact`: validate the raw arguments, and on success
sanitize the style-plus-markup string for the preview, build the full
document, and append the artifact; on failure return the structured error
result and leave the state untouched. -/
def executeCreateArtifact (ext : ExtDeps) (rawArgs : RawArgs) (st : OrchState) :
    Json × OrchState :=
  match parseArtifactArgs (jsonArgsOf rawArgs) with
  | Except.error detail =>
      (Json.jobj [("success", Json.jbool false),
        ("error", Json.jstr "Invalid artifact arguments"),
        ("errorDetail", detail)], st)
  | Except.ok a =>
      let id := ext.uuid st.nextId
      let previewHtml := ext.san ("<style>" ++ a.css.getD "" ++ "</style>" ++ a.html)
      let fullHtml := buildFullHtml a.html a.css a.js
      let artifact : Artifact := ⟨id, a.title, a.description, previewHtml, fullHtml⟩
      (Json.jobj [("success", Json.jbool true), ("artifactId", Json.jstr id)],
        { st with artifacts := st.artifacts ++ [artifact], nextId := st.nextId + 1 })

/-- `executeCreateDocument`: validate the raw arguments, and on success
create the document file, append the generated-file record with its
derived download URL; on failure return the structured error result and
leave the state untouched. -/
def executeCreateDocument (ext : ExtDeps) (rawArgs : RawArgs) (st : OrchState) :
    Json × OrchState :=
  match parseDocumentArgs (jsonArgsOf rawArgs) with
  | Except.error detail =>
      (Json.jobj [("success", Json.jbool false),
        ("error", Json.jstr "Invalid document arguments"),
        ("errorDetail", detail)], st)
  | Except.ok a =>
      let id := ext.uuid st.nextId
      let rs := createDocumentFile ext id a.filename a.type a.content st.store
      let result := rs.1
      let downloadUrl := "/api/generated/" ++ result.storedFilename
      let generated : GeneratedFile :=
        ⟨result.id, result.filename, result.type, downloadUrl, a.summary,
          result.storedFilename⟩
      (Json.jobj [("success", Json.jbool true), ("fileId", Json.jstr result.id),
        ("downloadUrl", Json.jstr downloadUrl), ("filename", Json.jstr result.filename)],
        { st with
            generatedFiles := st.generatedFiles ++ [generated]
            store := rs.2
            nextId := st.nextId + 1 })

/-! ## Backend responses and the tool-call loop (`runResponsesCall`) -/

/-- A content entry of a `message` output item. -/
inductive RespContent where
  | outputText : String → RespContent
  | otherContent : RespContent

/-- An output item of a backend response: a function call (name, optional
call id, optional raw arguments), a message, or anything else. -/
inductive OutputItem where
  | functionCall : String → Option String → Option RawArgs → OutputItem
  | message : List RespContent → OutputItem
  | otherItem : OutputItem

/-- A backend response (the `output` array; absent output is the empty
list). -/
structure Response where
  output : List OutputItem

/-- A `function_call_output` entry pushed back to the backend.  The
`output` field is the JSON value the source serialises with
`JSON.stringify`. -/
structure ToolOutput where
  callId : String
  output : Json

/-- `handleToolCalls`: walk the output items in order; every function call
carrying a call id produces exactly one output entry, dispatched to
`executeCreateArtifact` or `executeCreateDocument` by name, with the
unknown-function error object for any other name.  Function calls without
a call id and non-function items are skipped.  Absent arguments fall back
to the empty-object string. -/
def handleToolCalls (ext : ExtDeps) : List OutputItem → OrchState → List ToolOutput × OrchState
  | [], st => ([], st)
  | OutputItem.functionCall name (some cid) args :: rest, st =>
      let step : Json × OrchState :=
        if name = "create_artifact" then
          executeCreateArtifact ext (args.getD (RawArgs.wellFormed (Json.jobj []))) st
        else if name = "create_document" then
          executeCreateDocument ext (args.getD (RawArgs.wellFormed (Json.jobj []))) st
        else
          (Json.jobj [("error", Json.jstr ("Unknown function: " ++ name))], st)
      let rec2 := handleToolCalls ext rest step.2
      (⟨cid, step.1⟩ :: rec2.1, rec2.2)
  | _ :: rest, st => handleToolCalls ext rest st

/-- The number of output items that produce a tool output: function calls
carrying a call id, of any name. -/
def callCount : List OutputItem → Nat
  | [] => 0
  | OutputItem.functionCall _ (some _) _ :: rest => callCount rest + 1
  | _ :: rest => callCount rest

/-- The number of tool calls the claim calls dispatchable: function calls
carrying a call id whose name is `create_artifact` or `create_document`.
Stated from the claim wording, for comparison with the loop condition. -/
def dispatchableCount : List OutputItem → Nat
  | [] => 0
  | OutputItem.functionCall name (some _) _ :: rest =>
      if name = "create_artifact" ∨ name = "create_document" then
        dispatchableCount rest + 1
      else dispatchableCount rest
  | _ :: rest => dispatchableCount rest

/-- The `while (toolCallOutputs.length)` loop of `runResponsesCall`,
indexed by the backend round `k` (the environment `responses` gives the
response produced by round `k`; the dependence of real responses on the
submitted tool outputs is subsumed by quantifying over this function).
`fuel` bounds the number of unfolded iterations; the source places no such
bound, so exhausting any finite fuel (result `none`) witnesses that the
run is still looping.  On termination the result carries the index of the
final response and the final state. -/
def runLoop (ext : ExtDeps) (responses : Nat → Response) :
    Nat → Nat → OrchState → Option (Nat × OrchState)
  | 0, _, _ => none
  | fuel + 1, k, st =>
      let r := handleToolCalls ext (responses k).output st
      if r.1.isEmpty then some (k, r.2)
      else runLoop ext responses fuel (k + 1) r.2

/-- First `output_text` entry of a content list. -/
def firstOutputText : List RespContent → Option String
  | [] => none
  | RespContent.outputText t :: _ => some t
  | _ :: rest => firstOutputText rest

/-- `extractAssistantText`: the first `output_text` of the first message
item that has one, or the empty string. -/
def extractAssistantText : List OutputItem → String
  | [] => ""
  | OutputItem.message content :: rest =>
      match firstOutputText content with
      | some t => t
      | none => extractAssistantText rest
  | _ :: rest => extractAssistantText rest

/-! ## Attachments and the backend input (`buildAzureInput`) -/

/-- Attachment categories from `src/lib/fileClassification.ts`. -/
inductive Category where
  | image | text | other
deriving DecidableEq

/-- Chat message roles. -/
inductive Role where
  | system | user | assistant
deriving DecidableEq

/-- Uploaded-file metadata carried by a chat message attachment. -/
structure AttachmentMeta where
  id : String
  originalName : String
  storedFilename : String
  mimeType : String
  size : Nat
  publicUrl : String
  category : Category
  textPreview : Option String

/-- An inbound chat message after request validation. -/
structure ChatMsgIn where
  id : String
  role : Role
  text : String
  attachments : List AttachmentMeta

/-- A content block of the translated backend input. -/
inductive ContentPart where
  | inputText : String → ContentPart
  | outputText : String → ContentPart
  | inputImage : String → ContentPart

/-- One translated backend input message. -/
structure AzureMessage where
  role : Role
  content : List ContentPart

def TEXT_MIME_PREFIXES : List String :=
  ["text/", "application/json", "application/xml", "application/yaml"]

def TEXT_EXTENSIONS : List String := [".md", ".csv", ".tsv", ".log"]

/-- `isTextLikeFile` from `src/lib/fileClassification.ts`. -/
def isTextLikeFile (mimeType : Option String) (filename : String) : Bool :=
  match mimeType with
  | none => TEXT_EXTENSIONS.any (fun e => jsEndsWith filename e)
  | some m => if jsStartsWith m "text/" then true else TEXT_MIME_PREFIXES.contains m

/-- The degraded text block emitted when an attachment cannot be read. -/
def loadFailText (name : String) : String :=
  "Attachment \"" ++ name ++ "\" could not be loaded from the server."

/-- `mapAttachmentToContentPart`: read the stored blob; on failure degrade
to the could-not-be-loaded text block; otherwise emit an inline image data
URI for images, a structured text block for text-like files, and a
descriptive text block for everything else. -/
def mapAttachmentToContentPart (ext : ExtDeps) (blob : String → Option (List Nat))
    (a : AttachmentMeta) : ContentPart :=
  let fullPath := pathJoinAbs UPLOAD_DIR a.storedFilename
  match blob fullPath with
  | none => ContentPart.inputText (loadFailText a.originalName)
  | some bytes =>
      if a.category = Category.image then
        ContentPart.inputImage ("data:" ++ a.mimeType ++ ";base64," ++ base64Encode bytes)
      else if a.category = Category.text || isTextLikeFile (some a.mimeType) a.originalName then
        ContentPart.inputText (joinLines
          ["File Name: " ++ a.originalName, "MIME Type: " ++ a.mimeType, "",
           "Contents:", ext.bufToString bytes])
      else
        ContentPart.inputText ("Attached file \"" ++ a.originalName ++ "\" ("
          ++ a.mimeType ++ ", " ++ toString a.size ++ " bytes) is stored at "
          ++ a.publicUrl ++ ". Describe how you want to handle this file.")

/-- `buildAzureInput`: each message becomes one backend message whose
first content block is its text (an output block for assistant messages,
an input block otherwise) followed by one block per attachment, in
attachment order. -/
def buildAzureInput (ext : ExtDeps) (blob : String → Option (List Nat))
    (msgs : List ChatMsgIn) : List AzureMessage :=
  msgs.map (fun m =>
    let base :=
      if m.role = Role.assistant then ContentPart.outputText m.text
      else ContentPart.inputText m.text
    ⟨m.role, base :: m.attachments.map (mapAttachmentToContentPart ext blob)⟩)

/-- The assistant message the chat endpoint returns on success. -/
structure AssistantMessage where
  text : String
  artifacts : List Artifact
  generatedFiles : List GeneratedFile

/-- The happy path of `POST /chat` after validation: translate the
conversation, run the tool-call loop, and shape the final assistant
message from the final response and the accumulators.  The translated
backend input is returned alongside so theorems can inspect it;  `none`
in the second component models a loop still running after `fuel`
iterations. -/
def POSTchat (ext : ExtDeps) (blob : String → Option (List Nat))
    (responses : Nat → Response) (fuel : Nat) (msgs : List ChatMsgIn) :
    List AzureMessage × Option AssistantMessage :=
  let azureInput := buildAzureInput ext blob msgs
  match runLoop ext responses fuel 0 initialState with
  | some (k, st) =>
      (azureInput, some ⟨extractAssistantText (responses k).output, st.artifacts,
        st.generatedFiles⟩)
  | none => (azureInput, none)

/-- A concrete instantiation of the external collaborators, used by the
closed counterexamples and witnesses. -/
def ext0 : ExtDeps :=
  ⟨fun s => s, fun _ => [1], fun _ => [2], fun _ => "", fun n => "id" ++ toString n⟩

/-! ## The artifact sanitizer (allow-list configuration from the source,
engine modelled on the `sanitize-html` token stream) -/

/-- A token of the parsed HTML stream the sanitizer engine walks: text,
an opening tag with its attributes, or a closing tag. -/
inductive Token where
  | text : String → Token
  | openTag : String → List (String × String) → Token
  | closeTag : String → Token
deriving DecidableEq

/-- Allow-list configuration: allowed tags, the tags whose inner text is
discarded when the tag itself is disallowed, the attribute patterns of the
wildcard entry, and the per-tag attribute lists. -/
structure SanitizeConfig where
  allowedTags : List String
  nonTextTags : List String
  globalAttrs : List String
  perTagAttrs : List (String × List String)

/-- Modelled from the spec: the "conservative base set" of default allowed
tags of the external `sanitize-html` engine (its documented
`defaults.allowedTags`); the engine itself is not part of this repository. -/
def defaultAllowedTags : List String :=
  ["address", "article", "aside", "footer", "header", "h1", "h2", "h3", "h4",
   "h5", "h6", "hgroup", "main", "nav", "section", "blockquote", "dd", "div",
   "dl", "dt", "figcaption", "figure", "hr", "li", "ol", "p", "pre", "ul",
   "a", "abbr", "b", "bdi", "bdo", "br", "cite", "code", "data", "dfn", "em",
   "i", "kbd", "mark", "q", "rb", "rp", "rt", "rtc", "ruby", "s", "samp",
   "small", "span", "strong", "sub", "sup", "time", "u", "var", "wbr",
   "caption", "col", "colgroup", "table", "tbody", "td", "tfoot", "th",
   "thead", "tr"]

/-- The tag allow-list passed by `executeCreateArtifact`: the defaults
plus the nine extra tags listed in the source. -/
def artifactAllowedTags : List String :=
  defaultAllowedTags ++
    ["img", "svg", "path", "circle", "line", "polyline", "polygon", "style",
     "canvas"]

/-- Modelled from the spec: the external engine discards the inner text of
these disallowed tags entirely (its documented `nonTextTags`). -/
def engineNonTextTags : List String := ["script", "style", "textarea", "option"]

/-- Modelled from the spec: the default per-tag attribute allow-list of
the external engine (its documented `defaults.allowedAttributes`), spread
into the configuration by the source. -/
def defaultPerTagAttrs : List (String × List String) :=
  [("a", ["href", "name", "target"]),
   ("img", ["src", "srcset", "alt", "title", "width", "height", "loading"])]

/-- The wildcard attribute entry built by the source: the (empty) default
wildcard list plus style, class, id, and the data- prefix pattern. -/
def artifactGlobalAttrs : List String := ["style", "class", "id", "data-*"]

/-- The sanitizer configuration `executeCreateArtifact` passes. -/
def artifactSanitizeConfig : SanitizeConfig :=
  ⟨artifactAllowedTags, engineNonTextTags, artifactGlobalAttrs, defaultPerTagAttrs⟩

/-- Whether one attribute pattern (a literal name or a star-terminated
glob such as the data- pattern) matches an attribute name. -/
def attrPatMatches (pat attrName : String) : Bool :=
  if jsEndsWith pat "*" then (pat.data.dropLast).isPrefixOf attrName.data
  else pat == attrName

/-- Whether an attribute is allowed on a tag under a configuration. -/
def attrAllowed (cfg : SanitizeConfig) (tag attrName : String) : Bool :=
  (match lookupAttrs cfg.perTagAttrs tag with
   | some l => l.contains attrName
   | none => false)
  || cfg.globalAttrs.any (fun pat => attrPatMatches pat attrName)
where
  lookupAttrs : List (String × List String) → String → Option (List String)
    | [], _ => none
    | (k, v) :: rest, key => if k = key then some v else lookupAttrs rest key

/-- Modelled from the spec: the allow-list engine over the token stream
(the spec describes the sanitizer as an allow-list over tags and
attributes).  Allowed opening tags are kept with their attributes
filtered; disallowed non-text tags start a skip region that drops
everything up to the matching close; other disallowed tags are dropped
while their content is kept; text passes through; closing tags are kept
only for allowed tags.  The second argument counts the nesting depth of
the skip region. -/
def sanitizeTokens (cfg : SanitizeConfig) : List Token → Nat → List Token
  | [], _ => []
  | Token.text s :: rest, 0 => Token.text s :: sanitizeTokens cfg rest 0
  | Token.openTag tag attrs :: rest, 0 =>
      if cfg.allowedTags.contains tag then
        Token.openTag tag (attrs.filter (fun p => attrAllowed cfg tag p.1))
          :: sanitizeTokens cfg rest 0
      else if cfg.nonTextTags.contains tag then sanitizeTokens cfg rest 1
      else sanitizeTokens cfg rest 0
  | Token.closeTag tag :: rest, 0 =>
      if cfg.allowedTags.contains tag then Token.closeTag tag :: sanitizeTokens cfg rest 0
      else sanitizeTokens cfg rest 0
  | Token.openTag tag _ :: rest, k + 1 =>
      if cfg.nonTextTags.contains tag then sanitizeTokens cfg rest (k + 2)
      else sanitizeTokens cfg rest (k + 1)
  | Token.closeTag tag :: rest, k + 1 =>
      if cfg.nonTextTags.contains tag then sanitizeTokens cfg rest k
      else sanitizeTokens cfg rest (k + 1)
  | Token.text _ :: rest, k + 1 => sanitizeTokens cfg rest (k + 1)

/-- A token satisfies the allow-list: opening tags carry an allowed tag
and only allowed attributes, closing tags carry an allowed tag. -/
def tokenOk (cfg : SanitizeConfig) : Token → Bool
  | Token.openTag tag attrs =>
      cfg.allowedTags.contains tag && attrs.all (fun p => attrAllowed cfg tag p.1)
  | Token.closeTag tag => cfg.allowedTags.contains tag
  | Token.text _ => true

/-- A token opens a script element. -/
def isScriptOpen : Token → Bool
  | Token.openTag tag _ => tag == "script"
  | _ => false

/-- The preview pipeline of `executeCreateArtifact` at the token level:
the engine parses the style-plus-markup string (the parse is quantified
over in the theorems) and the allow-list walk sanitizes it. -/
def previewTokens (parse : String → List Token) (css html : String) : List Token :=
  sanitizeTokens artifactSanitizeConfig
    (parse ("<style>" ++ css ++ "</style>" ++ html)) 0

/-- Every token the sanitizer emits satisfies the allow-list. -/
theorem sanitizeTokens_sound (cfg : SanitizeConfig) :
    ∀ (l : List Token) (k : Nat) (t : Token),
      t ∈ sanitizeTokens cfg l k → tokenOk cfg t = true := by
  intro l
  induction l with
  | nil => intro k t h; simp [sanitizeTokens] at h
  | cons hd rest ih =>
      intro k t h
      match hd, k with
      | Token.text s, 0 =>
          rw [sanitizeTokens] at h
          rcases List.mem_cons.mp h with h1 | h2
          · subst h1; rfl
          · exact ih 0 t h2
      | Token.openTag tag attrs, 0 =>
          rw [sanitizeTokens] at h
          by_cases ha : cfg.allowedTags.contains tag
          · rw [if_pos ha] at h
            rcases List.mem_cons.mp h with h1 | h2
            · subst h1
              simp only [tokenOk, ha, Bool.true_and, List.all_eq_true]
              intro p hp
              exact (List.mem_filter.mp hp).2
            · exact ih 0 t h2
          · rw [if_neg ha] at h
            by_cases hb : cfg.nonTextTags.contains tag
            · rw [if_pos hb] at h; exact ih 1 t h
            · rw [if_neg hb] at h; exact ih 0 t h
      | Token.closeTag tag, 0 =>
          rw [sanitizeTokens] at h
          by_cases ha : cfg.allowedTags.contains tag
          · rw [if_pos ha] at h
            rcases List.mem_cons.mp h with h1 | h2
            · subst h1; exact ha
            · exact ih 0 t h2
          · rw [if_neg ha] at h; exact ih 0 t h
      | Token.openTag tag attrs, k + 1 =>
          rw [sanitizeTokens] at h
          by_cases hb : cfg.nonTextTags.contains tag
          · rw [if_pos hb] at h; exact ih (k + 2) t h
          · rw [if_neg hb] at h; exact ih (k + 1) t h
      | Token.closeTag tag, k + 1 =>
          rw [sanitizeTokens] at h
          by_cases hb : cfg.nonTextTags.contains tag
          · rw [if_pos hb] at h; exact ih k t h
          · rw [if_neg hb] at h; exact ih (k + 1) t h
      | Token.text s, k + 1 =>
          rw [sanitizeTokens] at h
          exact ih (k + 1) t h

example : artifactAllowedTags.contains "script" = false := by decide
example : artifactAllowedTags.contains "style" = true := by decide
example :
    sanitizeTokens artifactSanitizeConfig
      [Token.openTag "script" [], Token.text "alert(1)", Token.closeTag "script",
       Token.openTag "div" [("onclick", "x()"), ("class", "a")], Token.text "hi",
       Token.closeTag "div"] 0
    = [Token.openTag "div" [("class", "a")], Token.text "hi", Token.closeTag "div"] := by
  decide

/-! ## Claim C1 -/

/-- A store holding a file in a sibling directory whose name extends the
string `generated`. -/
def siblingBlob : String → Option (List Nat) :=
  fun p => if p = "/app/generatedX" then some [42] else none

/-- C1 counterexample: the path parameter `../generatedX` resolves to
`/app/generatedX`, which escapes the generated-files directory, yet the
handler does not answer 400 — it serves the contents of the sibling file,
because the string prefix check also accepts sibling paths whose name
extends `generated`. -/
theorem c1_counterexample :
    escapesGeneratedDir (pathJoinAbs GENERATED_DIR "../generatedX") = true ∧
    GETgenerated siblingBlob "../generatedX" ≠ GetResult.badRequest ∧
    GETgenerated siblingBlob "../generatedX"
      = GetResult.ok "application/octet-stream" "../generatedX" [42] := by
  refine ⟨by decide, by decide, by decide⟩

/-- C1 (amended): the handler answers 400 exactly when the joined path
does not have the `GENERATED_DIR` string as a prefix.  This rejects every
traversal that leaves the `/app` prefix, but a resolved path escaping
into a sibling entry whose name extends `generated` (such as
`/app/generatedX`) passes the check and is served. -/
theorem c1_badRequest_iff_prefix_check (blob : String → Option (List Nat)) (file : String) :
    GETgenerated blob file = GetResult.badRequest ↔
      jsStartsWith (pathJoinAbs GENERATED_DIR file) GENERATED_DIR = false := by
  unfold GETgenerated
  cases hb : jsStartsWith (pathJoinAbs GENERATED_DIR file) GENERATED_DIR with
  | false => simp [hb]
  | true =>
      simp only [hb, Bool.not_true, Bool.false_eq_true, if_false]
      cases blob (pathJoinAbs GENERATED_DIR file) with
      | none => simp
      | some bytes => simp

/-! ## Claim C4 -/

/-- A UUID of the shape `randomUUID()` produces. -/
def uuidC4 : String := "3b241101-e2bb-4255-8caf-4136c566a962"

/-- The blob store after `create_document` stored a PDF named `report`
under that UUID. -/
def storeC4 : List (String × List Nat) :=
  (createDocumentFile ext0 uuidC4 "report" DocumentType.pdf "hello" []).2

/-- C4 (code bug): the stored filename is the UUID, a dash, and
`report.pdf`, but the Content-Disposition filename of the download handler
strips only up to the FIRST dash — UUIDs contain dashes, so the header
filename keeps the UUID tail `e2bb-4255-8caf-4136c566a962-` instead of
being exactly `report.pdf` as the spec states. -/
theorem c4_disposition_keeps_uuid_tail :
    (createDocumentFile ext0 uuidC4 "report" DocumentType.pdf "hello" []).1.storedFilename
      = "3b241101-e2bb-4255-8caf-4136c566a962-report.pdf" ∧
    GETgenerated (fun p => storeC4.lookup p)
        "3b241101-e2bb-4255-8caf-4136c566a962-report.pdf"
      = GetResult.ok "application/pdf" "e2bb-4255-8caf-4136c566a962-report.pdf" [1] ∧
    "e2bb-4255-8caf-4136c566a962-report.pdf" ≠ "report.pdf" := by
  refine ⟨by decide, by decide, by decide⟩

/-! ## Claim C5 -/

/-- C5 counterexample: on `"\n\nhello"` the split yields one empty and one
non-empty block, and the code produces one paragraph for EACH of them,
while the claim demands exactly one paragraph (for the single non-empty
block). -/
theorem c5_counterexample :
    renderDocxParagraphs "\n\nhello" = ["", "hello"] ∧
    docxParagraphsClaim "\n\nhello" = ["hello"] ∧
    renderDocxParagraphs "\n\nhello" ≠ docxParagraphsClaim "\n\nhello" := by
  refine ⟨by decide, by decide, by decide⟩

/-- C5 (amended): the docx content handed to the external encoder is one
trimmed paragraph per split block — empty blocks included — and the
whole-content single-paragraph fallback of the source is unreachable
because the split always yields at least one block. -/
theorem c5_paragraph_per_split_block (ext : ExtDeps) (content : String) :
    createBufferForType ext DocumentType.docx content
        = ext.docxPack ((splitBlank content).map jsTrim) ∧
    (splitBlank content).length ≥ 1 := by
  have h := splitBlank_ne_nil content
  have hlen : (splitBlank content).length ≥ 1 := by
    cases hs : splitBlank content with
    | nil => exact absurd hs h
    | cons a l => simp
  refine ⟨?_, hlen⟩
  show ext.docxPack (renderDocxParagraphs content) = _
  congr 1
  rw [renderDocxParagraphs]
  have hne : ((splitBlank content).map jsTrim).length ≠ 0 := by
    rw [List.length_map]
    omega
  rw [if_pos hne]

/-! ## Claim C8 -/

/-- Every character the sanitising replacement emits lies in the allowed
class. -/
theorem allowedFileChar_sanitizeChar (c : Char) : allowedFileChar (sanitizeChar c) = true := by
  rw [sanitizeChar]
  by_cases h : allowedFileChar c
  · rw [if_pos h]; exact h
  · rw [if_neg h]; decide

/-- C8: the stored filename of every `create_document` call is the fresh
id, a dash, then the base name derived by stripping the extension,
replacing disallowed characters, truncating to 120 characters with the
fixed fallback for an empty result, followed by the canonical extension;
the derived base is nonempty, at most 120 characters, and consists only
of allowed characters. -/
theorem c8_stored_filename_shape (ext : ExtDeps) (id filename : String)
    (t : DocumentType) (content : String) (store : List (String × List Nat)) :
    ((createDocumentFile ext id filename t content store).1).storedFilename
        = id ++ "-" ++ (safeBase filename ++ EXTENSION_MAP t) ∧
    safeBase filename
        = (if String.mk (((stripExtension filename).data.map sanitizeChar).take 120) = ""
           then "azure-ai-document"
           else String.mk (((stripExtension filename).data.map sanitizeChar).take 120)) ∧
    safeBase filename ≠ "" ∧
    (safeBase filename).length ≤ 120 ∧
    (∀ c ∈ (safeBase filename).data, allowedFileChar c = true) := by
  refine ⟨rfl, rfl, ?_, ?_, ?_⟩
  · rw [safeBase]
    by_cases h : String.mk (((stripExtension filename).data.map sanitizeChar).take 120) = ""
    · rw [if_pos h]; decide
    · rw [if_neg h]; exact h
  · rw [safeBase]
    by_cases h : String.mk (((stripExtension filename).data.map sanitizeChar).take 120) = ""
    · rw [if_pos h]; decide
    · rw [if_neg h]
      show (((stripExtension filename).data.map sanitizeChar).take 120).length ≤ 120
      rw [List.length_take]
      exact Nat.min_le_left _ _
  · rw [safeBase]
    by_cases h : String.mk (((stripExtension filename).data.map sanitizeChar).take 120) = ""
    · rw [if_pos h]; decide
    · rw [if_neg h]
      intro c hc
      have hc2 : c ∈ (stripExtension filename).data.map sanitizeChar :=
        List.take_subset _ _ hc
      rcases List.mem_map.mp hc2 with ⟨x, _, hx⟩
      rw [← hx]
      exact allowedFileChar_sanitizeChar x

/-! ## Claim C3 -/

/-- `handleToolCalls` produces exactly one output per function call
carrying a call id, whatever the function name. -/
theorem handleToolCalls_length (ext : ExtDeps) :
    ∀ (l : List OutputItem) (st : OrchState),
      (handleToolCalls ext l st).1.length = callCount l := by
  intro l
  induction l with
  | nil => intro st; rfl
  | cons hd rest ih =>
      intro st
      match hd with
      | OutputItem.functionCall name (some cid) args =>
          simp only [handleToolCalls, callCount, List.length_cons]
          rw [ih]
      | OutputItem.functionCall name none args =>
          simp only [handleToolCalls, callCount]
          exact ih st
      | OutputItem.message c =>
          simp only [handleToolCalls, callCount]
          exact ih st
      | OutputItem.otherItem =>
          simp only [handleToolCalls, callCount]
          exact ih st

/-- The response whose only output item is a function call with a call id
naming a function that no local executor handles. -/
def respUnknown : Response :=
  Response.mk [OutputItem.functionCall "mystery" (some "call1") none]

/-- C3 counterexample: `respUnknown` contains zero dispatchable tool calls
in the sense of the claim (calls naming `create_artifact` or `create_document`
with a call id), yet a full loop iteration over it does NOT terminate the
loop — the unknown-name call still produces a tool output, so the run is
still looping when the fuel is exhausted instead of returning the
response. -/
theorem c3_counterexample :
    dispatchableCount respUnknown.output = 0 ∧
    runLoop ext0 (fun _ => respUnknown) 1 0 initialState = none := by
  refine ⟨by decide, by rfl⟩

/-- C3 (amended): the loop terminates exactly when a response yields zero
function calls CARRYING A CALL ID — regardless of name, since unknown
names still produce outputs — and no iteration bound exists: whenever it
returns, the final response has no such calls and every earlier one did;
a response with such a call always terminates immediately when absent;
and against a backend whose every response carries such a call, the loop
exhausts every finite fuel. -/
theorem c3_loop_stops_iff_call_outputs :
    (∀ (ext : ExtDeps) (responses : Nat → Response) (fuel k : Nat) (st : OrchState)
        (j : Nat) (st2 : OrchState),
        runLoop ext responses fuel k st = some (j, st2) →
        callCount (responses j).output = 0 ∧ k ≤ j) ∧
    (∀ (ext : ExtDeps) (responses : Nat → Response) (k : Nat) (st : OrchState) (fuel : Nat),
        callCount (responses k).output = 0 →
        runLoop ext responses (fuel + 1) k st
          = some (k, (handleToolCalls ext (responses k).output st).2)) ∧
    (∀ (ext : ExtDeps) (responses : Nat → Response),
        (∀ i, callCount (responses i).output ≠ 0) →
        ∀ (fuel k : Nat) (st : OrchState), runLoop ext responses fuel k st = none) := by
  refine ⟨?_, ?_, ?_⟩
  · intro ext responses fuel
    induction fuel with
    | zero => intro k st j st2 h; exact absurd h (by simp [runLoop])
    | succ fuel ih =>
        intro k st j st2 h
        rw [runLoop] at h
        by_cases he : (handleToolCalls ext (responses k).output st).1.isEmpty
        · rw [if_pos he] at h
          have hj : k = j := congrArg Prod.fst (Option.some.inj h)
          subst hj
          refine ⟨?_, Nat.le_refl k⟩
          have hlen0 : (handleToolCalls ext (responses k).output st).1.length = 0 := by
            cases hl : (handleToolCalls ext (responses k).output st).1 with
            | nil => rfl
            | cons a l => rw [hl] at he; simp [List.isEmpty] at he
          rw [handleToolCalls_length] at hlen0
          exact hlen0
        · rw [if_neg he] at h
          rcases ih (k + 1) _ j st2 h with ⟨hc, hk⟩
          exact ⟨hc, Nat.le_of_succ_le hk⟩
  · intro ext responses k st fuel h
    have hlen0 : (handleToolCalls ext (responses k).output st).1.length = 0 := by
      rw [handleToolCalls_length]; exact h
    have he : (handleToolCalls ext (responses k).output st).1.isEmpty = true := by
      cases hl : (handleToolCalls ext (responses k).output st).1 with
      | nil => rfl
      | cons a l => rw [hl] at hlen0; simp at hlen0
    rw [runLoop, if_pos he]
  · intro ext responses hall fuel
    induction fuel with
    | zero => intro k st; rfl
    | succ fuel ih =>
        intro k st
        rw [runLoop]
        have hne : ¬ (handleToolCalls ext (responses k).output st).1.isEmpty := by
          intro he
          have hlen0 : (handleToolCalls ext (responses k).output st).1.length = 0 := by
            cases hl : (handleToolCalls ext (responses k).output st).1 with
            | nil => rfl
            | cons a l => rw [hl] at he; simp [List.isEmpty] at he
          rw [handleToolCalls_length] at hlen0
          exact hall k hlen0
        rw [if_neg hne]
        exact ih (k + 1) _

/-- Witness for C3 (amended): against a backend that immediately stops
requesting tools the loop returns the first response, and against the
constant unknown-call backend the loop exhausts a fuel of five. -/
theorem c3_loop_stops_iff_call_outputs_witness :
    runLoop ext0 (fun _ => Response.mk []) 3 0 initialState = some (0, initialState) ∧
    runLoop ext0 (fun _ => respUnknown) 5 0 initialState = none := by
  constructor
  · exact c3_loop_stops_iff_call_outputs.2.1 ext0 (fun _ => Response.mk []) 0 initialState 2 rfl
  · exact c3_loop_stops_iff_call_outputs.2.2 ext0 (fun _ => respUnknown)
      (fun i => by show callCount respUnknown.output ≠ 0; decide) 5 0 initialState

/-! ## Claim C10 -/

/-- C10: a function call carrying a call id but naming neither
`create_artifact` nor `create_document` still pushes a
`function_call_output` for that call id whose output is the
unknown-function error object, the state is untouched, and — because that
output counts — the loop performs another backend round-trip. -/
theorem c10_unknown_function_round_trip (ext : ExtDeps) (name cid : String)
    (args : Option RawArgs) (st : OrchState)
    (h1 : name ≠ "create_artifact") (h2 : name ≠ "create_document") :
    handleToolCalls ext [OutputItem.functionCall name (some cid) args] st
      = ([⟨cid, Json.jobj [("error", Json.jstr ("Unknown function: " ++ name))]⟩], st) ∧
    (∀ (responses : Nat → Response) (fuel k : Nat),
        responses k = Response.mk [OutputItem.functionCall name (some cid) args] →
        runLoop ext responses (fuel + 1) k st = runLoop ext responses fuel (k + 1) st) := by
  have hmain :
      handleToolCalls ext [OutputItem.functionCall name (some cid) args] st
        = ([⟨cid, Json.jobj [("error", Json.jstr ("Unknown function: " ++ name))]⟩], st) := by
    simp only [handleToolCalls, if_neg h1, if_neg h2]
  refine ⟨hmain, ?_⟩
  intro responses fuel k hresp
  rw [runLoop, hresp]
  show (if (handleToolCalls ext [OutputItem.functionCall name (some cid) args] st).1.isEmpty
        then _ else _) = _
  rw [hmain]
  rfl

/-- Witness for C10. -/
theorem c10_unknown_function_round_trip_witness :
    handleToolCalls ext0 [OutputItem.functionCall "mystery2" (some "c10") none] initialState
      = ([⟨"c10", Json.jobj [("error", Json.jstr "Unknown function: mystery2")]⟩],
         initialState) ∧
    runLoop ext0 (fun _ => Response.mk [OutputItem.functionCall "mystery2" (some "c10") none])
        4 0 initialState
      = runLoop ext0 (fun _ => Response.mk [OutputItem.functionCall "mystery2" (some "c10") none])
        3 1 initialState := by
  have h := c10_unknown_function_round_trip ext0 "mystery2" "c10" none initialState
    (by decide) (by decide)
  exact ⟨h.1, h.2 _ 3 0 rfl⟩

/-! ## Claim C6 -/

/-- Parse failure makes `executeCreateArtifact` return the structured
failure object and leave the state untouched. -/
theorem executeCreateArtifact_error (ext : ExtDeps) (raw : RawArgs) (st : OrchState)
    (d : Json) (h : parseArtifactArgs (jsonArgsOf raw) = Except.error d) :
    executeCreateArtifact ext raw st
      = (Json.jobj [("success", Json.jbool false),
          ("error", Json.jstr "Invalid artifact arguments"),
          ("errorDetail", d)], st) := by
  rw [executeCreateArtifact, h]

/-- Parse failure makes `executeCreateDocument` return the structured
failure object and leave the state untouched. -/
theorem executeCreateDocument_error (ext : ExtDeps) (raw : RawArgs) (st : OrchState)
    (d : Json) (h : parseDocumentArgs (jsonArgsOf raw) = Except.error d) :
    executeCreateDocument ext raw st
      = (Json.jobj [("success", Json.jbool false),
          ("error", Json.jstr "Invalid document arguments"),
          ("errorDetail", d)], st) := by
  rw [executeCreateDocument, h]

/-- The backend environment of the C6 request-level statement: round zero
answers with one `create_artifact` call, every later round with no output. -/
def badCallResponses (cid : String) (raw : RawArgs) : Nat → Response :=
  fun k =>
    if k = 0
    then Response.mk [OutputItem.functionCall "create_artifact" (some cid) (some raw)]
    else Response.mk []

/-- C6: for a tool call whose raw argument payload is malformed JSON or
violates the schema, the executor returns the structured failure object
(success false, error, errorDetail) as the result handed back for that
call, no Artifact or GeneratedFile (or blob write) is appended, the
failure is pushed as the `function_call_output` of that call, and the chat
request still completes with an ordinary (empty-accumulator) assistant
message instead of an error response. -/
theorem c6_invalid_args_fail_structurally :
    (∀ (ext : ExtDeps) (raw : RawArgs) (st : OrchState) (d : Json),
        parseArtifactArgs (jsonArgsOf raw) = Except.error d →
        executeCreateArtifact ext raw st
          = (Json.jobj [("success", Json.jbool false),
              ("error", Json.jstr "Invalid artifact arguments"),
              ("errorDetail", d)], st)) ∧
    (∀ (ext : ExtDeps) (raw : RawArgs) (st : OrchState) (d : Json),
        parseDocumentArgs (jsonArgsOf raw) = Except.error d →
        executeCreateDocument ext raw st
          = (Json.jobj [("success", Json.jbool false),
              ("error", Json.jstr "Invalid document arguments"),
              ("errorDetail", d)], st)) ∧
    (∀ (ext : ExtDeps) (raw : RawArgs) (st : OrchState) (d : Json) (cid : String),
        parseArtifactArgs (jsonArgsOf raw) = Except.error d →
        handleToolCalls ext
            [OutputItem.functionCall "create_artifact" (some cid) (some raw)] st
          = ([⟨cid, Json.jobj [("success", Json.jbool false),
                ("error", Json.jstr "Invalid artifact arguments"),
                ("errorDetail", d)]⟩], st)) ∧
    (∀ (ext : ExtDeps) (blob : String → Option (List Nat)) (raw : RawArgs)
        (d : Json) (cid : String) (msgs : List ChatMsgIn),
        parseArtifactArgs (jsonArgsOf raw) = Except.error d →
        (POSTchat ext blob (badCallResponses cid raw) 2 msgs).2
          = some ⟨"", [], []⟩) := by
  have hhandle : ∀ (ext : ExtDeps) (raw : RawArgs) (st : OrchState) (d : Json) (cid : String),
      parseArtifactArgs (jsonArgsOf raw) = Except.error d →
      handleToolCalls ext
          [OutputItem.functionCall "create_artifact" (some cid) (some raw)] st
        = ([⟨cid, Json.jobj [("success", Json.jbool false),
              ("error", Json.jstr "Invalid artifact arguments"),
              ("errorDetail", d)]⟩], st) := by
    intro ext raw st d cid h
    have hx := executeCreateArtifact_error ext raw st d h
    simp only [handleToolCalls, Option.getD_some, hx]
    simp
  refine ⟨executeCreateArtifact_error, executeCreateDocument_error, hhandle, ?_⟩
  intro ext blob raw d cid msgs h
  have h1 := hhandle ext raw initialState d cid h
  have h0 : runLoop ext (badCallResponses cid raw) 2 0 initialState
      = some (1, initialState) := by
    show (if ((handleToolCalls ext
            [OutputItem.functionCall "create_artifact" (some cid) (some raw)]
            initialState).1.isEmpty) then
          some (0, (handleToolCalls ext
            [OutputItem.functionCall "create_artifact" (some cid) (some raw)]
            initialState).2)
        else runLoop ext (badCallResponses cid raw) 1 1
          (handleToolCalls ext
            [OutputItem.functionCall "create_artifact" (some cid) (some raw)]
            initialState).2)
        = some (1, initialState)
    rw [h1]
    rfl
  rw [POSTchat, h0]
  rfl

/-- Witness for C6: malformed JSON arguments to `create_artifact` yield
the structured failure with an untouched state, and the request still
completes with an assistant message. -/
theorem c6_invalid_args_fail_structurally_witness :
    executeCreateArtifact ext0 RawArgs.malformed initialState
      = (Json.jobj [("success", Json.jbool false),
          ("error", Json.jstr "Invalid artifact arguments"),
          ("errorDetail", Json.jobj [("title", Json.jarr [Json.jstr "Required"]),
            ("html", Json.jarr [Json.jstr "Required"])])], initialState) ∧
    (POSTchat ext0 (fun _ => none) (badCallResponses "call6" RawArgs.malformed) 2 []).2
      = some ⟨"", [], []⟩ := by
  constructor
  · exact c6_invalid_args_fail_structurally.1 ext0 RawArgs.malformed initialState _ rfl
  · exact c6_invalid_args_fail_structurally.2.2.2 ext0 (fun _ => none) RawArgs.malformed
      (Json.jobj [("title", Json.jarr [Json.jstr "Required"]),
        ("html", Json.jarr [Json.jstr "Required"])]) "call6" [] rfl

/-! ## Claim C7 -/

/-- C7: for txt, csv, and md documents the encoded buffer is exactly the
UTF-8 bytes of the content, the buffer decodes back to the original
codepoints (round-trip identity), and a successful `create_document` of
such a type appends exactly one blob write holding those bytes under the
derived storage path. -/
theorem c7_text_types_utf8_identity :
    (∀ (ext : ExtDeps) (content : String) (t : DocumentType),
        (t = DocumentType.txt ∨ t = DocumentType.csv ∨ t = DocumentType.md) →
        createBufferForType ext t content = utf8Encode content ∧
        utf8Dec (createBufferForType ext t content)
          = some (content.data.map Char.toNat)) ∧
    (∀ (ext : ExtDeps) (raw : RawArgs) (st : OrchState) (a : DocumentArgs),
        parseDocumentArgs (jsonArgsOf raw) = Except.ok a →
        (a.type = DocumentType.txt ∨ a.type = DocumentType.csv ∨ a.type = DocumentType.md) →
        (executeCreateDocument ext raw st).2.store
          = st.store ++ [(pathJoinAbs GENERATED_DIR
              (ext.uuid st.nextId ++ "-" ++ (safeBase a.filename ++ EXTENSION_MAP a.type)),
              utf8Encode a.content)]) := by
  have hbuf : ∀ (ext : ExtDeps) (content : String) (t : DocumentType),
      (t = DocumentType.txt ∨ t = DocumentType.csv ∨ t = DocumentType.md) →
      createBufferForType ext t content = utf8Encode content := by
    intro ext content t ht
    rcases ht with hh | hh | hh <;> subst hh <;> rfl
  constructor
  · intro ext content t ht
    refine ⟨hbuf ext content t ht, ?_⟩
    rw [hbuf ext content t ht]
    exact utf8Dec_utf8Encode content
  · intro ext raw st a hok ht
    rw [executeCreateDocument, hok]
    show st.store ++ [(pathJoinAbs GENERATED_DIR
        (ext.uuid st.nextId ++ "-" ++ (safeBase a.filename ++ EXTENSION_MAP a.type)),
        createBufferForType ext a.type a.content)] = _
    rw [hbuf ext a.content a.type ht]

/-- Raw arguments of a valid txt `create_document` call. -/
def rawC7 : RawArgs :=
  RawArgs.wellFormed (Json.jobj [("filename", Json.jstr "notes"),
    ("type", Json.jstr "txt"), ("content", Json.jstr "hi")])

/-- Witness for C7. -/
theorem c7_text_types_utf8_identity_witness :
    createBufferForType ext0 DocumentType.txt "hi" = utf8Encode "hi" ∧
    utf8Dec (createBufferForType ext0 DocumentType.txt "hi") = some [104, 105] ∧
    (executeCreateDocument ext0 rawC7 initialState).2.store
      = [(pathJoinAbs GENERATED_DIR "id0-notes.txt", utf8Encode "hi")] := by
  obtain ⟨h1, h2⟩ := c7_text_types_utf8_identity.1 ext0 "hi" DocumentType.txt (Or.inl rfl)
  refine ⟨h1, ?_, ?_⟩
  · rw [h2]
    rfl
  · have h3 := c7_text_types_utf8_identity.2 ext0 rawC7 initialState
      ⟨"notes", DocumentType.txt, "hi", none⟩ rfl (Or.inl rfl)
    rw [h3]
    rfl

/-! ## Claim C9 -/

/-- C9: an attachment whose stored file cannot be read maps to the
could-not-be-loaded text block, that block appears among the content
parts of its message in the translated backend input, and the chat
request still produces an assistant message whenever the loop
terminates. -/
theorem c9_unreadable_attachment_degrades (ext : ExtDeps)
    (blob : String → Option (List Nat)) (a : AttachmentMeta)
    (h : blob (pathJoinAbs UPLOAD_DIR a.storedFilename) = none) :
    mapAttachmentToContentPart ext blob a
      = ContentPart.inputText (loadFailText a.originalName) ∧
    (∀ (msgs : List ChatMsgIn) (m : ChatMsgIn), m ∈ msgs → a ∈ m.attachments →
        ∃ parts, AzureMessage.mk m.role parts ∈ buildAzureInput ext blob msgs ∧
          ContentPart.inputText (loadFailText a.originalName) ∈ parts) ∧
    (∀ (responses : Nat → Response) (fuel : Nat) (msgs : List ChatMsgIn)
        (k : Nat) (st : OrchState),
        runLoop ext responses fuel 0 initialState = some (k, st) →
        (POSTchat ext blob responses fuel msgs).2
          = some ⟨extractAssistantText (responses k).output, st.artifacts,
              st.generatedFiles⟩) := by
  have hmap : mapAttachmentToContentPart ext blob a
      = ContentPart.inputText (loadFailText a.originalName) := by
    rw [mapAttachmentToContentPart, h]
  refine ⟨hmap, ?_, ?_⟩
  · intro msgs m hm ha
    refine ⟨(if m.role = Role.assistant then ContentPart.outputText m.text
        else ContentPart.inputText m.text)
        :: m.attachments.map (mapAttachmentToContentPart ext blob), ?_, ?_⟩
    · exact List.mem_map_of_mem _ hm
    · exact List.mem_cons_of_mem _ (hmap ▸ List.mem_map_of_mem _ ha)
  · intro responses fuel msgs k st hloop
    rw [POSTchat, hloop]

/-- An image attachment whose stored blob is absent. -/
def attachC9 : AttachmentMeta :=
  ⟨"a1", "photo.png", "missing.png", "image/png", 10, "/uploads/missing.png",
    Category.image, none⟩

/-- A user message carrying that attachment. -/
def msgC9 : ChatMsgIn := ⟨"m1", Role.user, "look at this", [attachC9]⟩

/-- Witness for C9. -/
theorem c9_unreadable_attachment_degrades_witness :
    mapAttachmentToContentPart ext0 (fun _ => none) attachC9
      = ContentPart.inputText
          "Attachment \"photo.png\" could not be loaded from the server." ∧
    (∃ parts, AzureMessage.mk Role.user parts
        ∈ buildAzureInput ext0 (fun _ => none) [msgC9] ∧
        ContentPart.inputText (loadFailText "photo.png") ∈ parts) ∧
    (POSTchat ext0 (fun _ => none) (fun _ => Response.mk []) 1 [msgC9]).2
      = some ⟨"", [], []⟩ := by
  have h := c9_unreadable_attachment_degrades ext0 (fun _ => none) attachC9 rfl
  refine ⟨h.1, ?_, ?_⟩
  · exact h.2.1 [msgC9] msgC9 (List.mem_singleton.mpr rfl) (List.mem_singleton.mpr rfl)
  · have h3 := h.2.2 (fun _ => Response.mk []) 1 [msgC9] 0 initialState rfl
    rw [h3]
    rfl

/-! ## Claim C2 -/

theorem str_empty_append (s : String) : "" ++ s = s := rfl

theorem str_append_empty (s : String) : s ++ "" = s := by
  cases s with
  | mk data => show String.mk (data ++ []) = String.mk data; rw [List.append_nil]

/-- Joining any list that contains a distinguished element surrounds that
element verbatim with some prefix and suffix strings. -/
theorem joinLines_around (F1 : List String) (s : String) (F2 : List String) :
    ∃ a b, joinLines (F1 ++ s :: F2) = a ++ (s ++ b) := by
  induction F1 with
  | nil =>
      cases F2 with
      | nil =>
          exact ⟨"", "", by simp [joinLines, str_append_empty, str_empty_append]⟩
      | cons y ys =>
          refine ⟨"", "\n" ++ joinLines (y :: ys), ?_⟩
          simp [joinLines, str_empty_append, String.append_assoc]
  | cons x xs ih =>
      rcases ih with ⟨a, b, hab⟩
      cases hx : xs ++ s :: F2 with
      | nil => exact absurd hx (by simp)
      | cons z zs =>
          refine ⟨x ++ "\n" ++ a, b, ?_⟩
          show joinLines (x :: (xs ++ s :: F2)) = _
          rw [hx]
          simp only [joinLines]
          rw [← hx, hab]
          simp [String.append_assoc]

/-- C2: every token of the sanitized preview carries an allowed tag and
only allowed attributes — in particular no script element survives, for
ANY parse of the style-plus-markup input; the full document embeds a
nonempty supplied js verbatim inside a module script block; and the full
documents an artifact execution produces are identical under any two
choices of external collaborators — the sanitizer is never applied to
them. -/
theorem c2_preview_allowlisted_full_verbatim :
    (∀ (parse : String → List Token) (css html : String) (t : Token),
        t ∈ previewTokens parse css html →
        tokenOk artifactSanitizeConfig t = true ∧ isScriptOpen t = false) ∧
    (∀ (html : String) (css : Option String) (js : String), js ≠ "" →
        ∃ a b, buildFullHtml html css (some js)
          = a ++ (("<script type=\"module\">\n" ++ js ++ "\n</script>") ++ b)) ∧
    (∀ (e1 e2 : ExtDeps) (raw : RawArgs) (st : OrchState),
        ((executeCreateArtifact e1 raw st).2.artifacts.map Artifact.fullHtml)
          = ((executeCreateArtifact e2 raw st).2.artifacts.map Artifact.fullHtml)) := by
  refine ⟨?_, ?_, ?_⟩
  · intro parse css html t ht
    have hc := sanitizeTokens_sound artifactSanitizeConfig _ 0 t ht
    refine ⟨hc, ?_⟩
    cases t with
    | text s => rfl
    | closeTag tag => rfl
    | openTag tag attrs =>
        show (tag == "script") = false
        cases hs : tag == "script" with
        | false => rfl
        | true =>
            exfalso
            have htag : tag = "script" := eq_of_beq hs
            subst htag
            have hcontains : artifactAllowedTags.contains "script" = true := by
              have := hc
              simp only [tokenOk, artifactSanitizeConfig, Bool.and_eq_true] at this
              exact this.1
            exact absurd hcontains (by decide)
  · intro html css js hjs
    have hjb : ("<script type=\"module\">\n" ++ js ++ "\n</script>") ≠ "" := by
      intro heq
      have hlen := congrArg String.length heq
      rw [String.length_append, String.length_append] at hlen
      have h24 : ("<script type=\"module\">\n").length = 23 := by decide
      rw [h24] at hlen
      have h0 : ("" : String).length = 0 := rfl
      rw [h0] at hlen
      omega
    simp only [buildFullHtml]
    rw [if_neg hjs]
    show (∃ a b, joinLines (List.filter (fun l => decide (l ≠ ""))
        (["<!DOCTYPE html>", "<html>", "<head>", "<meta charset=\"utf-8\" />",
          "<style>", css.getD "", "</style>", "</head>", "<body>", html]
          ++ ("<script type=\"module\">\n" ++ js ++ "\n</script>")
            :: ["</body>", "</html>"]))
      = a ++ (("<script type=\"module\">\n" ++ js ++ "\n</script>") ++ b))
    rw [List.filter_append]
    have hfil : List.filter (fun l => decide (l ≠ ""))
        ["<script type=\"module\">\n" ++ js ++ "\n</script>", "</body>", "</html>"]
        = ("<script type=\"module\">\n" ++ js ++ "\n</script>")
          :: List.filter (fun l => decide (l ≠ "")) ["</body>", "</html>"] := by
      rw [List.filter_cons, decide_eq_true hjb]
      simp
    rw [hfil]
    have hfil2 : List.filter (fun l => decide (l ≠ "")) ["</body>", "</html>"]
        = ["</body>", "</html>"] := rfl
    rw [hfil2]
    exact joinLines_around _ _ _
  · intro e1 e2 raw st
    cases hp : parseArtifactArgs (jsonArgsOf raw) with
    | error d =>
        rw [executeCreateArtifact_error e1 raw st d hp,
          executeCreateArtifact_error e2 raw st d hp]
    | ok a =>
        rw [executeCreateArtifact, hp, executeCreateArtifact, hp]
        simp [List.map_append]

/-- Witness for C2: a concrete parse emitting a disallowed attribute on an
allowed tag is cleaned, and a concrete nonempty script is embedded
verbatim. -/
theorem c2_preview_allowlisted_full_verbatim_witness :
    (tokenOk artifactSanitizeConfig (Token.openTag "b" []) = true ∧
     isScriptOpen (Token.openTag "b" []) = false) ∧
    (∃ a b, buildFullHtml "<b>hi</b>" none (some "alert(1)")
      = a ++ (("<script type=\"module\">\n" ++ "alert(1)" ++ "\n</script>") ++ b)) := by
  constructor
  · exact c2_preview_allowlisted_full_verbatim.1
      (fun _ => [Token.openTag "b" [("onclick", "steal()")]]) "" "<b>hi</b>"
      (Token.openTag "b" []) (by decide)
  · exact c2_preview_allowlisted_full_verbatim.2.1 "<b>hi</b>" none "alert(1)" (by decide)

/-- Witness for C8. -/
theorem c8_stored_filename_shape_witness :
    ((createDocumentFile ext0 "id7" "my report (v2).pdf" DocumentType.md "x" []).1).storedFilename
      = "id7" ++ "-" ++ (safeBase "my report (v2).pdf" ++ EXTENSION_MAP DocumentType.md) ∧
    allowedFileChar 'm' = true := by
  have h := c8_stored_filename_shape ext0 "id7" "my report (v2).pdf" DocumentType.md "x" []
  exact ⟨h.1, h.2.2.2.2 'm' (by decide)⟩
